import Mathlib

/- Shallow embedding of the rkprocessor repository (src/rkprocessor.py and src/quickcsv.py).

   Modelling conventions:
   - Python str is modelled as Lean String; the handful of str methods the code uses
     (lower, startswith, split, format) are modelled explicitly below.
   - Python int is modelled as Int (arbitrary precision in both languages).
   - Python float arithmetic is modelled as exact rational arithmetic (Rat); the code
     only multiplies a parsed decimal literal by 1000 and truncates, and divides totals,
     so binary rounding of IEEE doubles is abstracted away.
   - datetime.strptime(value, "%Y-%m-%d %H:%M:%S").timestamp() is modelled as a parser
     returning seconds since the Unix epoch, reading the naive datetime as UTC.
   - A raised-and-uncaught Python exception is modelled with Except PyErr. -/

/-- Result of Python string comparison: startsList pat cs is true when pat is an
initial segment of cs (model of str.startswith, pattern argument first). -/
def startsList : List Char → List Char → Bool
  | [], _ => true
  | _ :: _, [] => false
  | p :: ps, c :: cs => p = c && startsList ps cs

/-- Model of Python s.startswith(pat). -/
def pyStarts (s pat : String) : Bool := startsList pat.toList s.toList

/-- Model of Python str.lower (the code only feeds it ASCII header names). -/
def pyLower (s : String) : String := String.mk (s.toList.map Char.toLower)

/-- True when needle occurs as a contiguous run inside the second list. -/
def containsSeq (needle : List Char) : List Char → Bool
  | [] => needle.isEmpty
  | c :: cs => startsList needle (c :: cs) || containsSeq needle cs

/-- True when sub occurs as a substring of s. -/
def strContainsSub (s sub : String) : Bool := containsSeq sub.toList s.toList

/-- Model of Python str.split(sep) for a one-character separator: no merging of
adjacent separators, and the empty string splits to one empty field. -/
def splitCh (sep : Char) : List Char → List (List Char)
  | [] => [[]]
  | c :: cs =>
    if c = sep then [] :: splitCh sep cs
    else
      match splitCh sep cs with
      | h :: t => (c :: h) :: t
      | [] => [[c]]

/-- Model of Python value.split(sep). -/
def pySplit (s : String) (sep : Char) : List String := (splitCh sep s.toList).map String.mk

/-- Numeric value of a decimal digit character. -/
def dval (c : Char) : Nat := c.toNat - 48

/-- Value of a nonempty run of decimal digits. -/
def digitsToNat (ds : List Char) : Nat := ds.foldl (fun a c => 10 * a + dval c) 0

/-- Strip leading and trailing whitespace, as Python int()/float() do. -/
def trimWsList (cs : List Char) : List Char :=
  ((cs.dropWhile (·.isWhitespace)).reverse.dropWhile (·.isWhitespace)).reverse

/-- Read an optional leading sign, returning the sign factor and the rest. -/
def readSign : List Char → Int × List Char
  | '+' :: rest => (1, rest)
  | '-' :: rest => (-1, rest)
  | cs => (1, cs)

/-- Model of Python int(s) on a string: optional surrounding whitespace, optional
sign, then one or more decimal digits; anything else raises ValueError (none here).
(Digit-grouping underscores are not modelled; the code never receives them.) -/
def pyInt (s : String) : Option Int :=
  let cs := trimWsList s.toList
  let p := readSign cs
  if p.2 ≠ [] ∧ p.2.all (·.isDigit) then some (p.1 * (digitsToNat p.2 : Int)) else none

/-- Model of Python float(s) as an exact rational: optional whitespace and sign,
a decimal literal with optional fractional part, and an optional exponent.
The special spellings inf/infinity/nan are not modelled (on those inputs the
program dies on the later int() call either way, an uncaught exception). -/
def pyFloat (s : String) : Option Rat :=
  let cs := trimWsList s.toList
  let sp := readSign cs
  let sgn := sp.1
  let cs1 := sp.2
  let ip := cs1.takeWhile (·.isDigit)
  let cs2 := cs1.dropWhile (·.isDigit)
  let fpr : List Char × List Char :=
    match cs2 with
    | '.' :: rest => (rest.takeWhile (·.isDigit), rest.dropWhile (·.isDigit))
    | _ => ([], cs2)
  let fp := fpr.1
  let cs3 := fpr.2
  if ip = [] ∧ fp = [] then none
  else
    let er : Int × List Char :=
      match cs3 with
      | c :: rest =>
        if c = 'e' ∨ c = 'E' then
          let esr := readSign rest
          let ed := esr.2.takeWhile (·.isDigit)
          let r2 := esr.2.dropWhile (·.isDigit)
          if ed = [] then (0, cs3) else (esr.1 * (digitsToNat ed : Int), r2)
        else (0, cs3)
      | [] => (0, [])
    if er.2 = [] then
      some (Rat.divInt (sgn * (digitsToNat (ip ++ fp) : Int) * 10 ^ er.1.toNat)
        ((10 : Int) ^ (fp.length + (-er.1).toNat)))
    else none

/-- Exact product of two rationals, built with the normalizing constructor
(kernel-reducible, unlike the library's irreducible arithmetic). -/
def ratMul (a b : Rat) : Rat := Rat.divInt (a.num * b.num) ((a.den : Int) * (b.den : Int))

/-- Exact quotient of two rationals (zero when the divisor is zero, as usual). -/
def ratDiv (a b : Rat) : Rat := Rat.divInt (a.num * (b.den : Int)) ((a.den : Int) * b.num)

/-- Exact difference of two rationals. -/
def ratSub (a b : Rat) : Rat :=
  Rat.divInt (a.num * (b.den : Int) - b.num * (a.den : Int)) ((a.den : Int) * (b.den : Int))

/-- Floor of a rational (the denominator is positive). -/
def ratFloor (q : Rat) : Int := Int.fdiv q.num q.den

/-- Model of Python int(x) on a float/rational: truncation toward zero. -/
def intTrunc (q : Rat) : Int :=
  if 0 ≤ q.num then ((q.num.toNat / q.den : Nat) : Int)
  else -(((q.num.natAbs / q.den : Nat) : Int))

/-- Gregorian leap-year test. -/
def isLeapN (y : Nat) : Bool := y % 4 == 0 && (y % 100 != 0 || y % 400 == 0)

/-- Length of a month in the proleptic Gregorian calendar. -/
def daysInMonth (y m : Nat) : Nat :=
  if m = 2 then (if isLeapN y then 29 else 28)
  else if m = 4 ∨ m = 6 ∨ m = 9 ∨ m = 11 then 30
  else 31

/-- Days in all years before year y (ordinal day 1 is 0001-01-01), as in CPython. -/
def daysBeforeYear (y : Nat) : Nat :=
  let n := y - 1
  365 * n + n / 4 + n / 400 - n / 100

/-- Days in the months of year y before month m. -/
def daysBeforeMonth (y m : Nat) : Nat :=
  ((List.range (m - 1)).map (fun i => daysInMonth y (i + 1))).foldl (· + ·) 0

/-- Proleptic Gregorian ordinal of a date, as in CPython's datetime.toordinal. -/
def toOrdinal (y m d : Nat) : Nat := daysBeforeYear y + daysBeforeMonth y m + d

/-- Seconds since the Unix epoch of a (naive, read as UTC) datetime.
719163 is the ordinal of 1970-01-01. -/
def mkTimestamp (y mo d h mi s : Nat) : Int :=
  ((toOrdinal y mo d : Int) - 719163) * 86400 + ((h * 3600 + mi * 60 + s : Nat) : Int)

/-- Exactly four decimal digits, as the %Y directive of CPython strptime. -/
def parse4Digits : List Char → Option (Nat × List Char)
  | a :: b :: c :: d :: rest =>
    if a.isDigit && b.isDigit && c.isDigit && d.isDigit then
      some (1000 * dval a + 100 * dval b + 10 * dval c + dval d, rest)
    else none
  | _ => none

/-- The %m directive of CPython strptime (ordered alternatives of the regex
1[0-2], 0[1-9], [1-9]; the delimiters that follow are never digits, so the
ordered greedy reading agrees with regex backtracking). -/
def parseMonthField : List Char → Option (Nat × List Char)
  | c1 :: c2 :: rest =>
    if c1 = '1' && c2.isDigit && c2 ≤ '2' then some (10 + dval c2, rest)
    else if c1 = '0' && c2.isDigit && '1' ≤ c2 then some (dval c2, rest)
    else if c1.isDigit && '1' ≤ c1 then some (dval c1, c2 :: rest)
    else none
  | [c1] => if c1.isDigit && '1' ≤ c1 then some (dval c1, []) else none
  | [] => none

/-- The %d directive of CPython strptime (3[01], [12] digit, 0[1-9], [1-9]). -/
def parseDayField : List Char → Option (Nat × List Char)
  | c1 :: c2 :: rest =>
    if c1 = '3' && (c2 = '0' || c2 = '1') then some (30 + dval c2, rest)
    else if (c1 = '1' || c1 = '2') && c2.isDigit then some (10 * dval c1 + dval c2, rest)
    else if c1 = '0' && c2.isDigit && '1' ≤ c2 then some (dval c2, rest)
    else if c1.isDigit && '1' ≤ c1 then some (dval c1, c2 :: rest)
    else none
  | [c1] => if c1.isDigit && '1' ≤ c1 then some (dval c1, []) else none
  | [] => none

/-- The %H directive of CPython strptime (2[0-3], [01] digit, digit). -/
def parseHourField : List Char → Option (Nat × List Char)
  | c1 :: c2 :: rest =>
    if c1 = '2' && c2.isDigit && c2 ≤ '3' then some (20 + dval c2, rest)
    else if (c1 = '0' || c1 = '1') && c2.isDigit then some (10 * dval c1 + dval c2, rest)
    else if c1.isDigit then some (dval c1, c2 :: rest)
    else none
  | [c1] => if c1.isDigit then some (dval c1, []) else none
  | [] => none

/-- The %M and %S directives of CPython strptime ([0-5] digit, digit). -/
def parseMinSecField : List Char → Option (Nat × List Char)
  | c1 :: c2 :: rest =>
    if c1.isDigit && c1 ≤ '5' && c2.isDigit then some (10 * dval c1 + dval c2, rest)
    else if c1.isDigit then some (dval c1, c2 :: rest)
    else none
  | [c1] => if c1.isDigit then some (dval c1, []) else none
  | [] => none

/-- A literal space in a strptime format matches one or more whitespace characters. -/
def skipWs1 : List Char → Option (List Char)
  | c :: rest => if c.isWhitespace then some (rest.dropWhile (·.isWhitespace)) else none
  | [] => none

/-- Require one exact literal character. -/
def expectCh (ch : Char) : List Char → Option (List Char)
  | c :: rest => if c = ch then some rest else none
  | [] => none

/-- Model of datetime.strptime(value, "%Y-%m-%d %H:%M:%S").timestamp():
a full match of the format (trailing input is a failure), the constructor's
day-of-month and MINYEAR validation, and conversion to epoch seconds (naive
datetime read as UTC). Returns none where CPython raises ValueError. -/
def strptime_YmdHMS (s : String) : Option Int := do
  let (y, r1) ← parse4Digits s.toList
  let r2 ← expectCh '-' r1
  let (mo, r3) ← parseMonthField r2
  let r4 ← expectCh '-' r3
  let (d, r5) ← parseDayField r4
  let r6 ← skipWs1 r5
  let (h, r7) ← parseHourField r6
  let r8 ← expectCh ':' r7
  let (mi, r9) ← parseMinSecField r8
  let r10 ← expectCh ':' r9
  let (sec, r11) ← parseMinSecField r10
  if r11 = [] ∧ 1 ≤ y ∧ d ≤ daysInMonth y mo then
    some (mkTimestamp y mo d h mi sec)
  else none

/-- A Python exception escaping the processing loop. -/
inductive PyErr where
  | nameError (name : String)
  | valueError (msg : String)
  | keyError (key : String)
  | typeError
deriving DecidableEq

/-- A DictReader row: the header keys paired with this row's values, in header order. -/
abbrev Row := List (String × String)

/-- The extracted dict built up by process_key_value for one row. -/
structure Extracted where
  timestamp : Option Int
  duration : Option Int
  distance : Option Int
deriving DecidableEq

/-- The empty extracted dict a row starts from. -/
def emptyExtracted : Extracted := ⟨none, none, none⟩

/-- The mutable state of an RKProcessor instance. -/
structure RKState where
  first_activity : Option Int
  last_activity : Option Int
  total_activities : Nat
  total_duration : Int
  total_distance : Int
  warnings : List (String × Row)
  start_timestamp : Int
  end_timestamp : Int
deriving DecidableEq

/-- RKProcessor.__init__. -/
def initState (start_timestamp end_timestamp : Int) : RKState :=
  ⟨none, none, 0, 0, 0, [], start_timestamp, end_timestamp⟩

/-- RKProcessor.warn: appends the message/row pair; the rendered string
"what (row: ...)" embeds the message verbatim (see formatWarning below). -/
def warnState (st : RKState) (what : String) (row : Row) : RKState :=
  { st with warnings := st.warnings ++ [(what, row)] }

/-- Value of int(x) on an entry of the padded duration list t_l: the padding
entries are already the int 0, the split components are strings fed to int(). -/
def int_or_str_val : Sum Int String → Option Int
  | Sum.inl n => some n
  | Sum.inr s => pyInt s

/-- The duration branch of process_key_value, after value.split(':'):
t_l = [0]*3 + parts, keep t_l[-3:], int() each, 3600*h + 60*m + s.
An unparsable component raises ValueError (uncaught by the caller). -/
def duration_of_parts (parts : List String) : Except PyErr Int :=
  let t_l : List (Sum Int String) := List.replicate 3 (Sum.inl 0) ++ parts.map Sum.inr
  let t_l3 := t_l.drop (t_l.length - 3)
  match t_l3 with
  | [a, b, c] =>
    match int_or_str_val a, int_or_str_val b, int_or_str_val c with
    | some th, some tm, some ts => Except.ok (3600 * th + 60 * tm + ts)
    | _, _, _ => Except.error (PyErr.valueError "invalid literal for int with base 10")
  | _ => Except.error (PyErr.valueError "unreachable: t_l[-3:] always has three entries")

/-- Duration parsing from the raw string: split on ':' then duration_of_parts. -/
def parse_duration (value : String) : Except PyErr Int := duration_of_parts (pySplit value ':')

/-- RKProcessor.process_key_value. On a date that fails to parse, the source's
except-handler calls self.warn('date {} looks funny'.format(value), row), but the
name row is not in scope inside this method (it is a local of process), so
evaluating the warn call's arguments raises NameError: the warning is never
recorded and the state is never touched on that path. -/
def process_key_value (key value : String) (ext : Extracted) (st : RKState) :
    Except PyErr (Extracted × RKState) :=
  let lk := pyLower key
  if pyStarts lk "date" then
    match strptime_YmdHMS value with
    | some ts => Except.ok ({ ext with timestamp := some ts }, st)
    | none => Except.error (PyErr.nameError "row")
  else if pyStarts lk "duration" then
    match duration_of_parts (pySplit value ':') with
    | Except.ok d => Except.ok ({ ext with duration := some d }, st)
    | Except.error e => Except.error e
  else if pyStarts lk "distance" then
    match pyFloat value with
    | some q => Except.ok ({ ext with distance := some (intTrunc (ratMul (Rat.ofInt 1000) q)) }, st)
    | none => Except.error (PyErr.valueError "could not convert string to float")
  else
    Except.ok (ext, st)

/-- The inner loop of RKProcessor.process: fold process_key_value over row.items(). -/
def processRowPairs : List (String × String) → Extracted → RKState → Except PyErr (Extracted × RKState)
  | [], ext, st => Except.ok (ext, st)
  | (k, v) :: rest, ext, st =>
    match process_key_value k v ext st with
    | Except.ok p => processRowPairs rest p.1 p.2
    | Except.error e => Except.error e

/-- Update of self.first_activity: `if not self.first_activity or timestamp <
self.first_activity` — note Python falsiness treats both None and a timestamp
of exactly 0 (the epoch) as unset. -/
def updateFirst (cur : Option Int) (ts : Int) : Option Int :=
  match cur with
  | none => some ts
  | some v => if v = 0 then some ts else if ts < v then some ts else some v

/-- Update of self.last_activity (same falsiness quirk). -/
def updateLast (cur : Option Int) (ts : Int) : Option Int :=
  match cur with
  | none => some ts
  | some v => if v = 0 then some ts else if v < ts then some ts else some v

/-- The body of RKProcessor.process once timestamp, duration and distance are all
present: the inclusive range filter, the zero-duration and zero-distance warnings,
the totals, the activity count and the first/last updates. -/
def foldActivity (st : RKState) (row : Row) (ts du di : Int) : RKState :=
  if st.start_timestamp ≤ ts ∧ ts ≤ st.end_timestamp then
    let st1 := if du = 0 then warnState st "time is zero" row
               else { st with total_duration := st.total_duration + du }
    let st2 := if di = 0 then warnState st1 "distance is zero" row
               else { st1 with total_distance := st1.total_distance + di }
    { st2 with
      total_activities := st2.total_activities + 1,
      first_activity := updateFirst st2.first_activity ts,
      last_activity := updateLast st2.last_activity ts }
  else st

/-- One iteration of RKProcessor.process. A missing extracted key raises KeyError
from extracted['timestamp'] (etc.); the source's `except IndexError` handler does
not catch KeyError, so the exception propagates (the 'ignored broken' warning is
dead code). The unused assignment self.skip_row = True is not modelled. -/
def processRow (st : RKState) (row : Row) : Except PyErr RKState :=
  match processRowPairs row emptyExtracted st with
  | Except.error e => Except.error e
  | Except.ok (ext, st1) =>
    match ext.timestamp with
    | none => Except.error (PyErr.keyError "timestamp")
    | some ts =>
      match ext.duration with
      | none => Except.error (PyErr.keyError "duration")
      | some du =>
        match ext.distance with
        | none => Except.error (PyErr.keyError "distance")
        | some di => Except.ok (foldActivity st1 row ts du di)

/-- RKProcessor.process over the row stream: an uncaught exception aborts the loop. -/
def process : RKState → List Row → Except PyErr RKState
  | st, [] => Except.ok st
  | st, row :: rest =>
    match processRow st row with
    | Except.ok st' => process st' rest
    | Except.error e => Except.error e

/-- Python truthiness of an int. -/
def pyTruthyInt (n : Int) : Bool := n != 0

/-- Python truthiness of a nonnegative count. -/
def pyTruthyNat (n : Nat) : Bool := n != 0

/-- A single-quote character, written by code point to keep string literals plain. -/
def sQuote : String := String.singleton (Char.ofNat 39)

/-- repr of a row dict as Python renders it inside a warning string. -/
def reprRow (row : Row) : String :=
  "\x7b" ++ String.intercalate ", "
    (row.map (fun kv => sQuote ++ kv.1 ++ sQuote ++ ": " ++ sQuote ++ kv.2 ++ sQuote)) ++ "\x7d"

/-- The string RKProcessor.warn stores: '{} (row: {})'.format(what, row). -/
def formatWarning (w : String × Row) : String := w.1 ++ " (row: " ++ reprRow w.2 ++ ")"

/-- Left zero-padding to a given width, as the :02 format spec. -/
def padZeros (w : Nat) (s : String) : String :=
  if s.length < w then String.mk (List.replicate (w - s.length) '0') ++ s else s

/-- Python '{:02}'.format(n). -/
def pad02 (n : Int) : String := padZeros 2 (toString n)

/-- Civil date from days since the Unix epoch (proleptic Gregorian). -/
def civilFromDays (z0 : Int) : Int × Nat × Nat :=
  let z := z0 + 719468
  let era := Int.fdiv z 146097
  let doe := (z - era * 146097).toNat
  let yoe := (doe - doe / 1460 + doe / 36524 - doe / 146096) / 365
  let doy := doe - (365 * yoe + yoe / 4 - yoe / 100)
  let mp := (5 * doy + 2) / 153
  let d := doy - (153 * mp + 2) / 5 + 1
  let m := if mp < 10 then mp + 3 else mp - 9
  let y := (yoe : Int) + era * 400
  (if m ≤ 2 then y + 1 else y, m, d)

/-- str(datetime.fromtimestamp(t)) in the naive-UTC model: "YYYY-MM-DD HH:MM:SS". -/
def tsToDatetimeStr (t : Int) : String :=
  let days := Int.fdiv t 86400
  let secs := (t - days * 86400).toNat
  let c := civilFromDays days
  padZeros 4 (toString c.1) ++ "-" ++ padZeros 2 (toString c.2.1) ++ "-" ++
    padZeros 2 (toString c.2.2) ++ " " ++ padZeros 2 (toString (secs / 3600)) ++ ":" ++
    padZeros 2 (toString (secs % 3600 / 60)) ++ ":" ++ padZeros 2 (toString (secs % 60))

/-- The first block of RKProcessor.__str__ (guarded by `if self.total_activities:`).
fromtimestamp(None) would raise TypeError; that state is unreachable from processing. -/
def activities_lines (st : RKState) : Except PyErr (List String) :=
  if pyTruthyNat st.total_activities then
    match st.first_activity, st.last_activity with
    | some f, some l =>
      Except.ok [tsToDatetimeStr f ++ " - " ++ tsToDatetimeStr l,
                 "activities: " ++ toString st.total_activities]
    | _, _ => Except.error PyErr.typeError
  else Except.ok []

/-- The derived average pace (int-truncated seconds per km) and average speed
(km/h), computed exactly when the source's guard `if self.total_duration and
self.total_distance:` (int truthiness, i.e. both nonzero) holds. -/
def rk_derived (st : RKState) : Option (Int × Rat) :=
  if pyTruthyInt st.total_duration && pyTruthyInt st.total_distance then
    some (intTrunc (ratDiv (Rat.ofInt st.total_duration)
            (ratDiv (Rat.ofInt st.total_distance) (Rat.ofInt 1000))),
          ratDiv (ratDiv (Rat.ofInt st.total_distance) (Rat.ofInt 1000))
            (ratDiv (Rat.ofInt st.total_duration) (Rat.ofInt 3600)))
  else none

/-- The second block of RKProcessor.__str__: distance, duration, average pace and
average speed lines, present only under the nonzero-totals guard. -/
def metrics_lines (st : RKState) : List String :=
  if pyTruthyInt st.total_duration && pyTruthyInt st.total_distance then
    let km := Int.fdiv st.total_distance 1000
    let dm := Int.fdiv (Int.emod st.total_distance 1000) 10
    let h := Int.fdiv st.total_duration 3600
    let m := Int.fdiv (Int.emod st.total_duration 3600) 60
    let s := Int.emod st.total_duration 60
    let pace := intTrunc (ratDiv (Rat.ofInt st.total_duration)
      (ratDiv (Rat.ofInt st.total_distance) (Rat.ofInt 1000)))
    let speed := ratDiv (ratDiv (Rat.ofInt st.total_distance) (Rat.ofInt 1000))
      (ratDiv (Rat.ofInt st.total_duration) (Rat.ofInt 3600))
    ["distance: " ++ toString km ++ "." ++ pad02 dm ++ " km",
     "duration: " ++ toString h ++ ":" ++ pad02 m ++ ":" ++ pad02 s,
     "average pace: " ++ toString (Int.fdiv pace 60) ++ ":" ++ pad02 (Int.emod pace 60) ++ " min/km",
     "average speed: " ++ toString (intTrunc speed) ++ "." ++
       pad02 (intTrunc (ratMul (Rat.ofInt 100) (ratSub speed (Rat.ofInt (ratFloor speed))))) ++ " km/h"]
  else []

/-- The warnings block of RKProcessor.__str__: the format string has one placeholder,
so only str(self.warnings) is rendered (the joined second argument is discarded). -/
def warning_lines (st : RKState) : List String :=
  if pyTruthyNat st.warnings.length then
    ["warnings: [" ++ String.intercalate ", "
       (st.warnings.map (fun w => sQuote ++ formatWarning w ++ sQuote)) ++ "]"]
  else []

/-- All lines of RKProcessor.__str__, in order. -/
def rk_str_lines (st : RKState) : Except PyErr (List String) :=
  match activities_lines st with
  | Except.ok act => Except.ok (act ++ metrics_lines st ++ warning_lines st)
  | Except.error e => Except.error e

/-- Insertion into a Python dict literal/assignment model: insertion order is kept,
an existing key is overwritten in place. -/
def pyDictInsert : List (String × Nat) → String → Nat → List (String × Nat)
  | [], k, v => [(k, v)]
  | (k', v') :: rest, k, v =>
    if k' = k then (k, v) :: rest else (k', v') :: pyDictInsert rest k v

/-- Lookup in the dict model (keys are unique by construction). -/
def pyDictGet : List (String × Nat) → String → Option Nat
  | [], _ => none
  | (k', v) :: rest, k => if k' = k then some v else pyDictGet rest k

/-- QuickCSV.columns_to_index: the comprehension `{c: i for i, c in enumerate(columns)}`
(last write wins on duplicate column names). -/
def columns_to_index_aux : Nat → List String → List (String × Nat) → List (String × Nat)
  | _, [], d => d
  | i, c :: rest, d => columns_to_index_aux (i + 1) rest (pyDictInsert d c i)

/-- QuickCSV.columns_to_index built from the header row. -/
def columns_to_index (columns : List String) : List (String × Nat) :=
  columns_to_index_aux 0 columns []

/-- The match condition of the prefix branch: column_name.lower().startswith(pattern)
(the pattern itself is not lowered). -/
def colMatches (column_name pattern : String) : Bool := pyStarts (pyLower column_name) pattern

/-- The inner loop of the prefix branch of setup_speed_dials: iterate
self.enumerated_columns (a dict {i: c} in insertion = index order) and break at
the first matching column. -/
def scanColumns (pattern : String) : Nat → List String → Option Nat
  | _, [] => none
  | i, c :: rest => if colMatches c pattern then some i else scanColumns pattern (i + 1) rest

/-- The prefix branch of QuickCSV.setup_speed_dials, accumulating self.speed_dials. -/
def build_dials_scan (columns : List String) : List String → List (String × Nat) → Except String (List (String × Nat))
  | [], dials => Except.ok dials
  | p :: rest, dials =>
    match scanColumns p 0 columns with
    | some i => build_dials_scan columns rest (pyDictInsert dials p i)
    | none => Except.error ("no match for pattern: \"" ++ p ++ "\"")

/-- The rename branch of QuickCSV.setup_speed_dials: exact lookup of each table key
in columns_to_index; a KeyError is re-raised as ValueError naming the column. -/
def build_dials_rename (columns : List String) : List (String × String) → List (String × Nat) → Except String (List (String × Nat))
  | [], dials => Except.ok dials
  | (cn, pat) :: rest, dials =>
    match pyDictGet (columns_to_index columns) cn with
    | some i => build_dials_rename columns rest (pyDictInsert dials pat i)
    | none => Except.error ("no match for column: \"" ++ cn ++ "\"")

/-- QuickCSV.setup_accessor: project the requested patterns, in caller order,
through self.speed_dials (the source's error string has a trailing space). -/
def setup_accessor (dials : List (String × Nat)) : List String → Except String (List Nat)
  | [] => Except.ok []
  | p :: rest =>
    match pyDictGet dials p with
    | some i =>
      match setup_accessor dials rest with
      | Except.ok acc => Except.ok (i :: acc)
      | Except.error e => Except.error e
    | none => Except.error ("no match for speed dial \"" ++ p ++ "\" ")

/-- QuickCSV.setup_speed_dials. Note `if column_rename:` is Python truthiness: an
empty rename dict falls through to the prefix branch exactly like None. -/
def setup_speed_dials (columns : List String) (speed_dials : List String)
    (column_rename : Option (List (String × String))) : Except String (List Nat) :=
  let dialsRes :=
    match column_rename with
    | some table =>
      if table.isEmpty then build_dials_scan columns speed_dials []
      else build_dials_rename columns table []
    | none => build_dials_scan columns speed_dials []
  match dialsRes with
  | Except.ok dials => setup_accessor dials speed_dials
  | Except.error e => Except.error e

/-- A file-like object held by QuickCSV: the process's standard input, or a handle
opened by open(filename). -/
inductive FileObj where
  | stdin
  | handle (id : Nat)
deriving DecidableEq

/-- The part of a QuickCSV instance's state that __exit__ can see or touch. -/
structure QuickCSVFileState where
  filename : Option String
  file_obj : Option FileObj
deriving DecidableEq

/-- Python truthiness of an optional string (None and '' are falsy). -/
def pyTruthyStrOpt : Option String → Bool
  | none => false
  | some s => s != ""

/-- The file_obj resolution of QuickCSV.__enter__: '-' with no preset file object
means sys.stdin; otherwise a truthy filename is opened (freshId names the handle
the reader opened itself, flagged true in the result). -/
def quickcsv_enter_fileobj (filename : Option String) (file_obj : Option FileObj)
    (freshId : Nat) : Option FileObj × Bool :=
  if filename = some "-" ∧ file_obj = none then (some FileObj.stdin, false)
  else if pyTruthyStrOpt filename then (some (FileObj.handle freshId), true)
  else (file_obj, false)

/-- QuickCSV.__exit__: `if self.file_obj and self.file_obj != sys.stdin:
self.file_obj.close()`. Returns the (unchanged) state and the list of file objects
closed; the exception arguments are ignored by the source, so every exit path
behaves identically. -/
def quickcsv_exit (s : QuickCSVFileState) (_exc_type : Option String) :
    QuickCSVFileState × List FileObj :=
  match s.file_obj with
  | some f => if f ≠ FileObj.stdin then (s, [f]) else (s, [])
  | none => (s, [])

/-- End of the demo date window: 2100-01-01 00:00:00 as epoch seconds. -/
def rkDemoEnd : Int := 4102444800

/-- A zero-duration demo row (the spec's own example). -/
def rkDemoRowZeroDur : Row :=
  [("Date", "2020-01-01 10:00:00"), ("Duration", "0:00:00"), ("Distance", "5.0")]

/-- A demo row whose date does not parse. -/
def rkDemoRowBadDate : Row :=
  [("Date", "garbage"), ("Duration", "1:00:00"), ("Distance", "5.0")]

/-- A well-formed demo row. -/
def rkDemoRowGood : Row :=
  [("Date", "2020-01-02 10:00:00"), ("Duration", "1:00:00"), ("Distance", "5.0")]

/-- A demo row with a negative duration component and distance 2.0 km. -/
def rkDemoRowNegDur : Row :=
  [("Date", "2020-01-01 10:00:00"), ("Duration", "-1:0:0"), ("Distance", "2.0")]

/-- A demo row with a negative duration component and distance 1.0 km. -/
def rkDemoRowNegDur2 : Row :=
  [("Date", "2020-01-01 10:00:00"), ("Duration", "-1:0:0"), ("Distance", "1.0")]

/-- process_key_value never modifies the processor state: the only state-writing
path (the warn call of the date handler) dies on the out-of-scope name first. -/
theorem pkv_state_eq {k v : String} {ext : Extracted} {st : RKState} {p : Extracted × RKState}
    (h : process_key_value k v ext st = Except.ok p) : p.2 = st := by
  unfold process_key_value at h
  simp only [] at h
  repeat' split at h
  all_goals (first | (injection h with h2; rw [← h2]) | simp at h)

/-- Folding process_key_value over a row's pairs never modifies the processor state. -/
theorem rowpairs_state_eq {pairs : List (String × String)} {ext : Extracted} {st : RKState}
    {p : Extracted × RKState} (h : processRowPairs pairs ext st = Except.ok p) : p.2 = st := by
  induction pairs generalizing ext st with
  | nil => simp [processRowPairs] at h; rw [← h]
  | cons kv rest ih =>
    unfold processRowPairs at h
    split at h
    · next q hq => exact (ih h).trans (pkv_state_eq hq)
    · simp at h

/-- Normal form of foldActivity on an in-range timestamp. -/
theorem foldActivity_inrange (st : RKState) (row : Row) (ts du di : Int)
    (hr : st.start_timestamp ≤ ts ∧ ts ≤ st.end_timestamp) :
    foldActivity st row ts du di =
      { st with
        total_duration := st.total_duration + (if du = 0 then 0 else du),
        total_distance := st.total_distance + (if di = 0 then 0 else di),
        total_activities := st.total_activities + 1,
        warnings := st.warnings ++ (if du = 0 then [("time is zero", row)] else [])
                                ++ (if di = 0 then [("distance is zero", row)] else []),
        first_activity := updateFirst st.first_activity ts,
        last_activity := updateLast st.last_activity ts } := by
  unfold foldActivity
  rw [if_pos hr]
  by_cases h1 : du = 0 <;> by_cases h2 : di = 0 <;>
    simp [h1, h2, warnState, List.append_assoc]

/-- foldActivity on an out-of-range timestamp is the identity. -/
theorem foldActivity_outrange (st : RKState) (row : Row) (ts du di : Int)
    (hr : ¬(st.start_timestamp ≤ ts ∧ ts ≤ st.end_timestamp)) :
    foldActivity st row ts du di = st := by
  unfold foldActivity
  rw [if_neg hr]

/-- A successful processRow is a foldActivity step on the unchanged incoming state. -/
theorem processRow_ok_shape {st : RKState} {row : Row} {st2 : RKState}
    (h : processRow st row = Except.ok st2) :
    ∃ ts du di, st2 = foldActivity st row ts du di := by
  unfold processRow at h
  split at h
  · simp at h
  · next ext st1 hp =>
    have hst1 : st1 = st := rowpairs_state_eq hp
    subst hst1
    split at h
    · simp at h
    · next ts hts =>
      split at h
      · simp at h
      · next du hdu =>
        split at h
        · simp at h
        · next di hdi =>
          injection h with h2
          exact ⟨ts, du, di, h2.symm⟩

/-- One processRow step either leaves the state unchanged or counts one activity. -/
theorem processRow_count {st : RKState} {row : Row} {st2 : RKState}
    (h : processRow st row = Except.ok st2) :
    st2 = st ∨ st2.total_activities = st.total_activities + 1 := by
  obtain ⟨ts, du, di, rfl⟩ := processRow_ok_shape h
  by_cases hr : st.start_timestamp ≤ ts ∧ ts ≤ st.end_timestamp
  · right
    rw [foldActivity_inrange st row ts du di hr]
  · left
    exact foldActivity_outrange st row ts du di hr

/-- The activity count never decreases under process, and a run that does not
change the count does not change the state at all. -/
theorem process_count_mono {rows : List Row} {st s : RKState}
    (h : process st rows = Except.ok s) :
    st.total_activities ≤ s.total_activities ∧
      (s.total_activities = st.total_activities → s = st) := by
  induction rows generalizing st with
  | nil =>
    simp [process] at h
    exact ⟨by rw [h], fun _ => h.symm⟩
  | cons row rest ih =>
    unfold process at h
    split at h
    · next st1 h1 =>
      obtain ⟨hle, heq⟩ := ih h
      rcases processRow_count h1 with hc | hc
      · subst hc
        exact ⟨hle, heq⟩
      · refine ⟨by omega, fun he => ?_⟩
        omega
    · simp at h

/-- C1: on a row whose date fails to parse, the code does not record the
"looks funny" warning and continue; evaluating the warn call's argument `row`
raises NameError (out of scope in process_key_value), the uncaught exception
aborts the stream, and the following valid row is never folded — while the same
valid row alone folds normally. -/
theorem rk_unparsable_date_crash :
    process (initState 0 rkDemoEnd) [rkDemoRowBadDate, rkDemoRowGood] =
      Except.error (PyErr.nameError "row") ∧
    process (initState 0 rkDemoEnd) [rkDemoRowGood] =
      Except.ok ⟨some 1577959200, some 1577959200, 1, 3600, 5000, [], 0, rkDemoEnd⟩ :=
  ⟨rfl, rfl⟩

/-- C10: a key/value pair whose lowercase key starts with none of "date",
"duration", "distance" leaves both the extracted fields and the whole
aggregator state unchanged. -/
theorem rk_ignored_key (key value : String) (ext : Extracted) (st : RKState)
    (h1 : pyStarts (pyLower key) "date" = false)
    (h2 : pyStarts (pyLower key) "duration" = false)
    (h3 : pyStarts (pyLower key) "distance" = false) :
    process_key_value key value ext st = Except.ok (ext, st) := by
  unfold process_key_value
  simp only [h1, h2, h3, Bool.false_eq_true, if_false]

/-- Witness for rk_ignored_key at the key "Type". -/
theorem rk_ignored_key_witness :
    pyStarts (pyLower "Type") "date" = false ∧
    process_key_value "Type" "Running" emptyExtracted (initState 0 1) =
      Except.ok (emptyExtracted, initState 0 1) :=
  ⟨rfl, rk_ignored_key "Type" "Running" emptyExtracted (initState 0 1) rfl rfl rfl⟩

/-- C3: a row that parsed completely and whose timestamp lies outside the
inclusive window is skipped entirely (the state, warnings included, is returned
unchanged); a timestamp equal to either endpoint of a nonempty window is counted. -/
theorem rk_range_filter (st : RKState) (row : Row) (ext : Extracted) (ts du di : Int)
    (hkv : processRowPairs row emptyExtracted st = Except.ok (ext, st))
    (hts : ext.timestamp = some ts) (hdu : ext.duration = some du)
    (hdi : ext.distance = some di) :
    ((ts < st.start_timestamp ∨ st.end_timestamp < ts) →
      processRow st row = Except.ok st) ∧
    ((ts = st.start_timestamp ∨ ts = st.end_timestamp) →
      st.start_timestamp ≤ st.end_timestamp →
      ∃ st2, processRow st row = Except.ok st2 ∧
        st2.total_activities = st.total_activities + 1) := by
  have hrow : processRow st row = Except.ok (foldActivity st row ts du di) := by
    simp only [processRow, hkv, hts, hdu, hdi]
  constructor
  · intro hout
    have hnr : ¬(st.start_timestamp ≤ ts ∧ ts ≤ st.end_timestamp) := by
      rintro ⟨hc1, hc2⟩
      rcases hout with h | h <;> omega
    rw [hrow, foldActivity_outrange st row ts du di hnr]
  · intro hep hne
    have hin : st.start_timestamp ≤ ts ∧ ts ≤ st.end_timestamp := by
      rcases hep with h | h <;> exact ⟨by omega, by omega⟩
    refine ⟨_, hrow, ?_⟩
    rw [foldActivity_inrange st row ts du di hin]

/-- Witness for rk_range_filter: an out-of-window row leaves the state untouched,
and a row landing exactly on the window's start endpoint is counted. -/
theorem rk_range_filter_witness :
    processRow (initState 2000000000 rkDemoEnd) rkDemoRowGood =
      Except.ok (initState 2000000000 rkDemoEnd) ∧
    (∃ st2, processRow (initState 1577959200 rkDemoEnd) rkDemoRowGood = Except.ok st2 ∧
      st2.total_activities = (initState 1577959200 rkDemoEnd).total_activities + 1) :=
  ⟨(rk_range_filter (initState 2000000000 rkDemoEnd) rkDemoRowGood
      ⟨some 1577959200, some 3600, some 5000⟩ 1577959200 3600 5000 rfl rfl rfl rfl).1
      (Or.inl (by decide)),
   (rk_range_filter (initState 1577959200 rkDemoEnd) rkDemoRowGood
      ⟨some 1577959200, some 3600, some 5000⟩ 1577959200 3600 5000 rfl rfl rfl rfl).2
      (Or.inl rfl) (by decide)⟩

/-- C2 (amended): an in-range row whose parsed duration is zero gets exactly one
new warning with message "time is zero" (plus a separate "distance is zero"
warning only if the distance is also zero), leaves total_duration unchanged,
adds the distance, counts the activity, and applies the first/last update. -/
theorem rk_zero_duration_row (st : RKState) (row : Row) (ext : Extracted) (ts di : Int)
    (hkv : processRowPairs row emptyExtracted st = Except.ok (ext, st))
    (hts : ext.timestamp = some ts) (hdu : ext.duration = some 0)
    (hdi : ext.distance = some di)
    (hlo : st.start_timestamp ≤ ts) (hhi : ts ≤ st.end_timestamp) :
    processRow st row = Except.ok
      { st with
        total_duration := st.total_duration,
        total_distance := st.total_distance + di,
        total_activities := st.total_activities + 1,
        warnings := st.warnings ++ [("time is zero", row)]
                                ++ (if di = 0 then [("distance is zero", row)] else []),
        first_activity := updateFirst st.first_activity ts,
        last_activity := updateLast st.last_activity ts } := by
  have hrow : processRow st row = Except.ok (foldActivity st row ts 0 di) := by
    simp only [processRow, hkv, hts, hdu, hdi]
  rw [hrow, foldActivity_inrange st row ts 0 di ⟨hlo, hhi⟩]
  by_cases h2 : di = 0 <;> simp [h2]

/-- Witness for rk_zero_duration_row on the spec's example row. -/
theorem rk_zero_duration_row_witness :
    processRow (initState 0 rkDemoEnd) rkDemoRowZeroDur = Except.ok
      { initState 0 rkDemoEnd with
        total_duration := 0,
        total_distance := 0 + 5000,
        total_activities := 0 + 1,
        warnings := [] ++ [("time is zero", rkDemoRowZeroDur)] ++ [],
        first_activity := some 1577872800,
        last_activity := some 1577872800 } :=
  rk_zero_duration_row (initState 0 rkDemoEnd) rkDemoRowZeroDur
    ⟨some 1577872800, some 0, some 5000⟩ 1577872800 5000 rfl rfl rfl rfl
    (by decide) (by decide)

/-- C2 counterexample: on the spec's zero-duration example the totals are as the
claim says, there is exactly one warning, but no warning's rendered text mentions
"duration is zero" — the code's message is "time is zero". -/
theorem rk_zero_duration_wording_cex :
    (process (initState 0 rkDemoEnd) [rkDemoRowZeroDur]).toOption.map
        (fun s => (s.total_activities, s.total_duration, s.total_distance,
          (s.warnings.filter (fun w => strContainsSub (formatWarning w) "duration is zero")).length,
          s.warnings.length)) =
      some (1, 0, 5000, 0, 1) := by
  rfl

/-- C8 counterexample: the duration parser accepts negative components, so the
single row ("2020-01-01 10:00:00", "-1:0:0", "1.0") is folded with duration
-3600 and strictly decreases total_duration. -/
theorem rk_negative_duration_cex :
    (process (initState 0 rkDemoEnd) [rkDemoRowNegDur2]).toOption.map
        (fun s => (s.total_duration,
          decide (s.total_duration < (initState 0 rkDemoEnd).total_duration))) =
      some (-3600, true) := by
  rfl

/-- C8 (amended): integer durations and distances are folded as parsed; whenever
the parsed duration and distance of a row are non-negative (as in any genuine
export), processing the row cannot decrease total_duration or total_distance. -/
theorem rk_totals_monotone (st : RKState) (row : Row) (ext : Extracted) (ts du di : Int)
    (hkv : processRowPairs row emptyExtracted st = Except.ok (ext, st))
    (hts : ext.timestamp = some ts) (hdu : ext.duration = some du)
    (hdi : ext.distance = some di) (hdu0 : 0 ≤ du) (hdi0 : 0 ≤ di) :
    ∃ st2, processRow st row = Except.ok st2 ∧
      st.total_duration ≤ st2.total_duration ∧
      st.total_distance ≤ st2.total_distance := by
  have hrow : processRow st row = Except.ok (foldActivity st row ts du di) := by
    simp only [processRow, hkv, hts, hdu, hdi]
  refine ⟨_, hrow, ?_, ?_⟩ <;>
    by_cases hr : st.start_timestamp ≤ ts ∧ ts ≤ st.end_timestamp
  · rw [foldActivity_inrange st row ts du di hr]
    dsimp only
    split <;> omega
  · rw [foldActivity_outrange st row ts du di hr]
  · rw [foldActivity_inrange st row ts du di hr]
    dsimp only
    split <;> omega
  · rw [foldActivity_outrange st row ts du di hr]

/-- Witness for rk_totals_monotone on a well-formed row. -/
theorem rk_totals_monotone_witness :
    ∃ st2, processRow (initState 0 rkDemoEnd) rkDemoRowGood = Except.ok st2 ∧
      (initState 0 rkDemoEnd).total_duration ≤ st2.total_duration ∧
      (initState 0 rkDemoEnd).total_distance ≤ st2.total_distance :=
  rk_totals_monotone (initState 0 rkDemoEnd) rkDemoRowGood
    ⟨some 1577959200, some 3600, some 5000⟩ 1577959200 3600 5000 rfl rfl rfl rfl
    (by decide) (by decide)

/-- C4: the duration parser takes up to three colon-separated integer components
as H:M:S, left-pads missing components with zero ("5:30" is 330 seconds), keeps
only the trailing three components when more are given, and returns
3600*H + 60*M + S. -/
theorem rk_duration_parsing :
    (∀ a b c : String, ∀ th tm ts : Int,
      pyInt a = some th → pyInt b = some tm → pyInt c = some ts →
      duration_of_parts [a, b, c] = Except.ok (3600 * th + 60 * tm + ts)) ∧
    (∀ a b : String, ∀ tm ts : Int, pyInt a = some tm → pyInt b = some ts →
      duration_of_parts [a, b] = Except.ok (60 * tm + ts)) ∧
    (∀ a : String, ∀ ts : Int, pyInt a = some ts →
      duration_of_parts [a] = Except.ok ts) ∧
    (∀ parts : List String, 3 ≤ parts.length →
      duration_of_parts parts = duration_of_parts (parts.drop (parts.length - 3))) ∧
    parse_duration "5:30" = Except.ok 330 := by
  refine ⟨?_, ?_, ?_, ?_, rfl⟩
  · intro a b c th tm ts ha hb hc
    simp [duration_of_parts, int_or_str_val, ha, hb, hc]
  · intro a b tm ts ha hb
    simp [duration_of_parts, int_or_str_val, ha, hb]
  · intro a ts ha
    simp [duration_of_parts, int_or_str_val, ha]
  · intro parts hlen
    unfold duration_of_parts
    simp only []
    have hd1 : (List.replicate 3 (Sum.inl 0 : Sum Int String) ++ parts.map Sum.inr).drop
        ((List.replicate 3 (Sum.inl 0 : Sum Int String) ++ parts.map Sum.inr).length - 3) =
        (parts.map Sum.inr).drop (parts.length - 3) := by
      have h3 : (List.replicate 3 (Sum.inl 0 : Sum Int String) ++ parts.map Sum.inr).length - 3 =
          (List.replicate 3 (Sum.inl 0 : Sum Int String)).length + (parts.length - 3) := by
        simp only [List.length_append, List.length_replicate, List.length_map]
        omega
      rw [h3, List.drop_append]
    have hlen2 : (parts.drop (parts.length - 3)).length = 3 := by
      simp only [List.length_drop]
      omega
    have hd2 : (List.replicate 3 (Sum.inl 0 : Sum Int String) ++
          (parts.drop (parts.length - 3)).map Sum.inr).drop
        ((List.replicate 3 (Sum.inl 0 : Sum Int String) ++
          (parts.drop (parts.length - 3)).map Sum.inr).length - 3) =
        (parts.map Sum.inr).drop (parts.length - 3) := by
      have h3 : (List.replicate 3 (Sum.inl 0 : Sum Int String) ++
            (parts.drop (parts.length - 3)).map Sum.inr).length - 3 =
          (List.replicate 3 (Sum.inl 0 : Sum Int String)).length := by
        simp only [List.length_append, List.length_replicate, List.length_map, hlen2]
      rw [h3, List.drop_left, List.map_drop]
    rw [hd1, hd2]

/-- Witness for rk_duration_parsing with three parsed components. -/
theorem rk_duration_parsing_witness :
    pyInt "1" = some 1 ∧
    duration_of_parts ["1", "30", "5"] = Except.ok (3600 * 1 + 60 * 30 + 5) :=
  ⟨rfl, rk_duration_parsing.1 "1" "30" "5" 1 30 5 rfl rfl rfl⟩

/-- The two report divisors are nonzero rationals when the source integers are. -/
theorem ratDiv_ofInt_ne_zero {a b : Int} (ha : a ≠ 0) (hb : b ≠ 0) :
    ratDiv (Rat.ofInt a) (Rat.ofInt b) ≠ 0 := by
  have h1 : ratDiv (Rat.ofInt a) (Rat.ofInt b) = Rat.divInt a b := by
    simp [ratDiv, Rat.ofInt]
  rw [h1]
  exact Rat.divInt_ne_zero_of_ne_zero ha hb

/-- C5 (amended): the pace/speed block is computed exactly when both totals are
nonzero (the code's int-truthiness guard; with non-negative inputs this is
strict positivity), so the divisors of both divisions are nonzero; when either
total is zero the derived metrics are absent and the four metric lines are
omitted from the rendered report entirely; and a zero-activity snapshot reached
from the initial state is the initial state itself, rendered as an empty report
with no division performed. -/
theorem rk_report_guard :
    (∀ st : RKState, st.total_duration ≠ 0 → st.total_distance ≠ 0 →
      (rk_derived st).isSome = true ∧
      ratDiv (Rat.ofInt st.total_distance) (Rat.ofInt 1000) ≠ 0 ∧
      ratDiv (Rat.ofInt st.total_duration) (Rat.ofInt 3600) ≠ 0) ∧
    (∀ st : RKState, st.total_duration = 0 ∨ st.total_distance = 0 →
      rk_derived st = none ∧ metrics_lines st = [] ∧
      ∀ act, activities_lines st = Except.ok act →
        rk_str_lines st = Except.ok (act ++ warning_lines st)) ∧
    (∀ a b : Int, ∀ rows : List Row, ∀ st : RKState,
      process (initState a b) rows = Except.ok st → st.total_activities = 0 →
      st = initState a b ∧ rk_str_lines st = Except.ok [] ∧ rk_derived st = none) := by
  refine ⟨?_, ?_, ?_⟩
  · intro st h1 h2
    refine ⟨?_, ratDiv_ofInt_ne_zero h2 (by norm_num), ratDiv_ofInt_ne_zero h1 (by norm_num)⟩
    simp [rk_derived, pyTruthyInt, h1, h2]
  · intro st h
    have hguard : (pyTruthyInt st.total_duration && pyTruthyInt st.total_distance) = false := by
      rcases h with h | h <;> simp [pyTruthyInt, h]
    have hm : metrics_lines st = [] := by
      unfold metrics_lines
      rw [hguard]
      rfl
    have hd : rk_derived st = none := by
      unfold rk_derived
      rw [hguard]
      rfl
    refine ⟨hd, hm, ?_⟩
    intro act hact
    unfold rk_str_lines
    rw [hact, hm]
    simp
  · intro a b rows st h hc
    have h2 : st = initState a b := (process_count_mono h).2 (by rw [hc]; rfl)
    subst h2
    exact ⟨rfl, rfl, rfl⟩

/-- Witness for rk_report_guard: a nonzero-totals snapshot has the derived block,
and an empty run renders the empty report. -/
theorem rk_report_guard_witness :
    (rk_derived ⟨some 1, some 1, 1, 3600, 10000, [], 0, 10⟩).isSome = true ∧
    rk_str_lines (initState 0 5) = Except.ok [] :=
  ⟨(rk_report_guard.1 ⟨some 1, some 1, 1, 3600, 10000, [], 0, 10⟩
      (by decide) (by decide)).1,
   (rk_report_guard.2.2 0 5 [] (initState 0 5) rfl rfl).2.1⟩

/-- C5 counterexample: the guard is truthiness, not strict positivity — a
reachable snapshot with total_duration = -3600 (not strictly positive) still has
its pace and speed computed, and the "average pace" line is rendered. -/
theorem rk_report_positivity_cex :
    (process (initState 0 rkDemoEnd) [rkDemoRowNegDur]).toOption.map
        (fun s => (s.total_duration, decide (0 < s.total_duration), (rk_derived s).isSome,
          (rk_str_lines s).toOption.map
            (fun ls => ls.filter (fun l => pyStarts l "average pace")))) =
      some (-3600, false, true, some ["average pace: -30:00 min/km"]) := by
  rfl

/-- A successful scan returns the least matching column index (offset by i). -/
theorem scanColumns_some {pattern : String} {cols : List String} {i j : Nat}
    (h : scanColumns pattern i cols = some j) :
    ∃ k, ∃ hk : k < cols.length, j = i + k ∧ colMatches (cols.get ⟨k, hk⟩) pattern = true ∧
      ∀ k', k' < k → ∀ hk' : k' < cols.length, colMatches (cols.get ⟨k', hk'⟩) pattern = false := by
  induction cols generalizing i with
  | nil => simp [scanColumns] at h
  | cons c rest ih =>
    unfold scanColumns at h
    split at h
    · next hc =>
      injection h with h2
      refine ⟨0, by simp, by omega, by simpa using hc, ?_⟩
      intro k' hk'
      exact absurd hk' (Nat.not_lt_zero _)
    · next hc =>
      obtain ⟨k, hk, hj, hmatch, hprev⟩ := ih h
      refine ⟨k + 1, by simpa using Nat.succ_lt_succ hk, by omega, hmatch, ?_⟩
      intro k' hlt hk'
      cases k' with
      | zero => simpa using hc
      | succ k2 => exact hprev k2 (by omega) (by simpa using hk')

/-- A failed scan means no column matches. -/
theorem scanColumns_none {pattern : String} {cols : List String} {i : Nat}
    (h : scanColumns pattern i cols = none) : ∀ c ∈ cols, colMatches c pattern = false := by
  induction cols generalizing i with
  | nil => simp
  | cons c rest ih =>
    unfold scanColumns at h
    split at h
    · simp at h
    · next hc =>
      intro x hx
      rcases List.mem_cons.1 hx with rfl | hx2
      · simpa using hc
      · exact ih h x hx2

/-- If no column matches, the scan fails from any starting index. -/
theorem scanColumns_none_of {pattern : String} : ∀ (cols : List String) (i : Nat),
    (∀ c ∈ cols, colMatches c pattern = false) → scanColumns pattern i cols = none := by
  intro cols
  induction cols with
  | nil => intro i _; rfl
  | cons c rest ih =>
    intro i h
    unfold scanColumns
    rw [h c (by simp)]
    simp only [Bool.false_eq_true, if_false]
    exact ih (i + 1) (fun x hx => h x (by simp [hx]))

/-- Lookup after an overwriting insert. -/
theorem pyDictGet_insert (d : List (String × Nat)) (k : String) (v : Nat) (k2 : String) :
    pyDictGet (pyDictInsert d k v) k2 = if k2 = k then some v else pyDictGet d k2 := by
  induction d with
  | nil =>
    by_cases h : k = k2
    · simp [pyDictInsert, pyDictGet, h]
    · have h2 : ¬ k2 = k := fun e => h e.symm
      simp [pyDictInsert, pyDictGet, h, h2]
  | cons e rest ih =>
    obtain ⟨k1, v1⟩ := e
    unfold pyDictInsert
    by_cases h1 : k1 = k
    · subst h1
      simp only [if_pos rfl]
      unfold pyDictGet
      by_cases h2 : k1 = k2
      · subst h2
        simp
      · have h3 : ¬ k2 = k1 := fun e => h2 e.symm
        simp [h2, h3]
    · rw [if_neg h1]
      unfold pyDictGet
      by_cases h2 : k1 = k2
      · subst h2
        simp [h1]
      · simp [h2, ih]

/-- Invariants of the prefix-branch dial accumulation: every stored index is the
scan result for its pattern, every processed pattern is present, and existing
keys are never dropped. -/
theorem bds_ok {columns : List String} : ∀ (pats : List String) (dials dials2 : List (String × Nat)),
    build_dials_scan columns pats dials = Except.ok dials2 →
    (∀ p v, pyDictGet dials p = some v → scanColumns p 0 columns = some v) →
    (∀ p v, pyDictGet dials2 p = some v → scanColumns p 0 columns = some v) ∧
    (∀ p, p ∈ pats → (pyDictGet dials2 p).isSome) ∧
    (∀ p, (pyDictGet dials p).isSome → (pyDictGet dials2 p).isSome) := by
  intro pats
  induction pats with
  | nil =>
    intro dials dials2 h hinv
    simp [build_dials_scan] at h
    subst h
    exact ⟨hinv, by simp, fun p hp => hp⟩
  | cons p rest ih =>
    intro dials dials2 h hinv
    unfold build_dials_scan at h
    split at h
    · next i hscan =>
      have hinv2 : ∀ q v, pyDictGet (pyDictInsert dials p i) q = some v →
          scanColumns q 0 columns = some v := by
        intro q v hq
        rw [pyDictGet_insert] at hq
        split at hq
        · next hqp =>
          subst hqp
          injection hq with hq2
          rw [← hq2]
          exact hscan
        · exact hinv q v hq
      obtain ⟨h1, h2, h3⟩ := ih _ _ h hinv2
      refine ⟨h1, ?_, fun q hq => h3 q ?_⟩
      · intro q hqmem
        rcases List.mem_cons.1 hqmem with rfl | hqmem2
        · exact h3 q (by rw [pyDictGet_insert]; simp)
        · exact h2 q hqmem2
      · rw [pyDictGet_insert]
        split <;> simp_all
    · simp at h

/-- A successful accessor projection has one index per requested pattern. -/
theorem sa_length {dials : List (String × Nat)} : ∀ (pats : List String) (acc : List Nat),
    setup_accessor dials pats = Except.ok acc → acc.length = pats.length := by
  intro pats
  induction pats with
  | nil =>
    intro acc h
    simp [setup_accessor] at h
    simp [← h]
  | cons p rest ih =>
    intro acc h
    unfold setup_accessor at h
    split at h
    · split at h
      · next acc2 hacc2 =>
        injection h with h2
        subst h2
        simp [ih acc2 hacc2]
      · simp at h
    · simp at h

/-- Each accessor entry is the dial stored for the pattern at the same position. -/
theorem sa_get {dials : List (String × Nat)} : ∀ (pats : List String) (acc : List Nat),
    setup_accessor dials pats = Except.ok acc →
    ∀ i, ∀ hi : i < pats.length, ∀ hj : i < acc.length,
      pyDictGet dials (pats.get ⟨i, hi⟩) = some (acc.get ⟨i, hj⟩) := by
  intro pats
  induction pats with
  | nil =>
    intro acc h i hi
    exact absurd hi (by simp)
  | cons p rest ih =>
    intro acc h i hi hj
    unfold setup_accessor at h
    split at h
    · next v hv =>
      split at h
      · next acc2 hacc2 =>
        injection h with h2
        subst h2
        cases i with
        | zero => exact hv
        | succ i2 =>
          exact ih acc2 hacc2 i2 (by simp at hi; omega) (by simp at hj; omega)
      · simp at h
    · simp at h

/-- When every requested pattern has a dial, the accessor projection succeeds. -/
theorem sa_ok_of {dials : List (String × Nat)} : ∀ (pats : List String),
    (∀ p ∈ pats, (pyDictGet dials p).isSome) →
    ∃ acc, setup_accessor dials pats = Except.ok acc := by
  intro pats
  induction pats with
  | nil => intro _; exact ⟨[], rfl⟩
  | cons p rest ih =>
    intro h
    obtain ⟨v, hv⟩ := Option.isSome_iff_exists.1 (h p (by simp))
    obtain ⟨acc2, hacc2⟩ := ih (fun x hx => h x (by simp [hx]))
    refine ⟨v :: acc2, ?_⟩
    unfold setup_accessor
    rw [hv, hacc2]

/-- If some requested pattern matches no column, the prefix branch fails with the
"no match for pattern" error naming the first such pattern. -/
theorem bds_err {columns : List String} : ∀ (pats : List String) (dials : List (String × Nat)),
    (∃ p, p ∈ pats ∧ scanColumns p 0 columns = none) →
    ∃ q, q ∈ pats ∧ scanColumns q 0 columns = none ∧
      build_dials_scan columns pats dials =
        Except.error ("no match for pattern: \"" ++ q ++ "\"") := by
  intro pats
  induction pats with
  | nil =>
    intro dials h
    simp at h
  | cons p rest ih =>
    intro dials h
    cases hscan : scanColumns p 0 columns with
    | none =>
      refine ⟨p, by simp, hscan, ?_⟩
      unfold build_dials_scan
      rw [hscan]
    | some i =>
      obtain ⟨q, hqmem, hqnone⟩ := h
      have hq : q ∈ rest := by
        rcases List.mem_cons.1 hqmem with rfl | hm
        · rw [hscan] at hqnone
          exact absurd hqnone (by simp)
        · exact hm
      obtain ⟨q2, hq2mem, hq2none, hq2err⟩ := ih (pyDictInsert dials p i) ⟨q, hq, hqnone⟩
      refine ⟨q2, by simp [hq2mem], hq2none, ?_⟩
      unfold build_dials_scan
      rw [hscan]
      exact hq2err

/-- C6: with no rename table, resolution produces one index per pattern in
caller order, each being the smallest column index whose lowercased name starts
with the pattern; if some pattern matches no column, resolution fails with the
"no match for pattern" error naming such a pattern, and no accessor is produced. -/
theorem qc_scan_resolution (columns pats : List String) :
    (∀ acc, setup_speed_dials columns pats none = Except.ok acc →
      acc.length = pats.length ∧
      ∀ i, ∀ hi : i < pats.length, ∀ hj : i < acc.length,
        ∃ hc : acc.get ⟨i, hj⟩ < columns.length,
          colMatches (columns.get ⟨acc.get ⟨i, hj⟩, hc⟩) (pats.get ⟨i, hi⟩) = true ∧
          ∀ k, ∀ hk : k < columns.length, k < acc.get ⟨i, hj⟩ →
            colMatches (columns.get ⟨k, hk⟩) (pats.get ⟨i, hi⟩) = false) ∧
    (∀ p, p ∈ pats → (∀ c ∈ columns, colMatches c p = false) →
      ∃ q, q ∈ pats ∧ (∀ c ∈ columns, colMatches c q = false) ∧
        setup_speed_dials columns pats none =
          Except.error ("no match for pattern: \"" ++ q ++ "\"")) := by
  constructor
  · intro acc hok
    unfold setup_speed_dials at hok
    simp only [] at hok
    split at hok
    · next dials hdials =>
      have hinv := bds_ok pats [] dials hdials (by intro p v hv; simp [pyDictGet] at hv)
      refine ⟨sa_length pats acc hok, ?_⟩
      intro i hi hj
      have hget := sa_get pats acc hok i hi hj
      have hscan := hinv.1 _ _ hget
      obtain ⟨k, hk, hjk, hmatch, hprev⟩ := scanColumns_some hscan
      have hjeq : acc.get ⟨i, hj⟩ = k := by omega
      rw [hjeq]
      exact ⟨hk, hmatch, fun k2 hk2 hlt => hprev k2 hlt hk2⟩
    · simp at hok
  · intro p hp hnone
    have hscan : scanColumns p 0 columns = none :=
      scanColumns_none_of columns 0 (fun c hc => hnone c hc)
    obtain ⟨q, hqmem, hqnone, hqerr⟩ := bds_err pats [] ⟨p, hp, hscan⟩
    refine ⟨q, hqmem, fun c hc => scanColumns_none hqnone c hc, ?_⟩
    unfold setup_speed_dials
    simp only []
    rw [hqerr]

/-- Witness for qc_scan_resolution: the spec's tie-break example resolves to
index 0 and the accessor has one entry per pattern. -/
theorem qc_scan_resolution_witness :
    setup_speed_dials ["Date Created", "Date Started"] ["date"] none = Except.ok [0] ∧
    ([0] : List Nat).length = (["date"] : List String).length :=
  ⟨rfl, ((qc_scan_resolution ["Date Created", "Date Started"] ["date"]).1 [0] rfl).1⟩

/-- columns_to_index misses a name exactly when the name is not a header entry. -/
theorem cti_get_none_iff (columns : List String) (name : String) :
    pyDictGet (columns_to_index columns) name = none ↔ ¬ name ∈ columns := by
  have aux : ∀ (cols : List String) (i : Nat) (d : List (String × Nat)),
      pyDictGet (columns_to_index_aux i cols d) name = none ↔
      (¬ name ∈ cols ∧ pyDictGet d name = none) := by
    intro cols
    induction cols with
    | nil => intro i d; simp [columns_to_index_aux]
    | cons c rest ih =>
      intro i d
      unfold columns_to_index_aux
      rw [ih]
      rw [pyDictGet_insert]
      by_cases hnc : name = c <;> simp [hnc, List.mem_cons]
  unfold columns_to_index
  rw [aux]
  simp [pyDictGet]

/-- The rename branch fails with the "no match for column" error naming the first
table entry whose header name is missing. -/
theorem bdr_err {columns : List String} : ∀ (table : List (String × String))
    (dials : List (String × Nat)) (kv : String × String),
    table.find? (fun kv2 => (pyDictGet (columns_to_index columns) kv2.1).isNone) = some kv →
    build_dials_rename columns table dials =
      Except.error ("no match for column: \"" ++ kv.1 ++ "\"") := by
  intro table
  induction table with
  | nil => intro dials kv h; simp at h
  | cons e rest ih =>
    intro dials kv h
    obtain ⟨cn, pat⟩ := e
    cases hget : pyDictGet (columns_to_index columns) cn with
    | none =>
      have hfind : ((cn, pat) :: rest).find?
          (fun kv2 => (pyDictGet (columns_to_index columns) kv2.1).isNone) = some (cn, pat) :=
        List.find?_cons_of_pos _ (by simp [hget])
      rw [hfind] at h
      injection h with h2
      subst h2
      unfold build_dials_rename
      rw [hget]
    | some i =>
      have hfind : ((cn, pat) :: rest).find?
          (fun kv2 => (pyDictGet (columns_to_index columns) kv2.1).isNone) =
          rest.find? (fun kv2 => (pyDictGet (columns_to_index columns) kv2.1).isNone) :=
        List.find?_cons_of_neg _ (by simp [hget])
      rw [hfind] at h
      unfold build_dials_rename
      rw [hget]
      exact ih _ kv h

/-- When every table entry names an existing column, the rename branch succeeds. -/
theorem bdr_ok {columns : List String} : ∀ (table : List (String × String))
    (dials : List (String × Nat)),
    (∀ kv ∈ table, (pyDictGet (columns_to_index columns) kv.1).isSome) →
    ∃ dials2, build_dials_rename columns table dials = Except.ok dials2 := by
  intro table
  induction table with
  | nil => intro dials _; exact ⟨dials, rfl⟩
  | cons e rest ih =>
    intro dials h
    obtain ⟨cn, pat⟩ := e
    obtain ⟨i, hi⟩ := Option.isSome_iff_exists.1 (h (cn, pat) (by simp))
    obtain ⟨dials2, hd2⟩ := ih (pyDictInsert dials pat i) (fun kv hkv => h kv (by simp [hkv]))
    refine ⟨dials2, ?_⟩
    unfold build_dials_rename
    rw [hi]
    exact hd2

/-- C7 (amended): with a nonempty rename table, resolution is exact-match only:
a lookup miss is exactly a header name absent verbatim; if any table entry's
header name is missing, resolution fails with the "no match for column" error
naming the first missing one; and when all names are present the result factors
through the exact dials alone, with no prefix matching involved. -/
theorem qc_rename_resolution (columns pats : List String) (table : List (String × String))
    (hne : table ≠ []) :
    (∀ name : String, pyDictGet (columns_to_index columns) name = none ↔ ¬ name ∈ columns) ∧
    (∀ kv : String × String,
      table.find? (fun kv2 => (pyDictGet (columns_to_index columns) kv2.1).isNone) = some kv →
      kv ∈ table ∧ ¬ kv.1 ∈ columns ∧
      setup_speed_dials columns pats (some table) =
        Except.error ("no match for column: \"" ++ kv.1 ++ "\"")) ∧
    (∀ kv : String × String, kv ∈ table → ¬ kv.1 ∈ columns →
      (table.find? (fun kv2 => (pyDictGet (columns_to_index columns) kv2.1).isNone)).isSome) ∧
    ((∀ kv ∈ table, kv.1 ∈ columns) →
      ∃ dials, build_dials_rename columns table [] = Except.ok dials ∧
        setup_speed_dials columns pats (some table) = setup_accessor dials pats) := by
  have htne : table.isEmpty = false := by
    cases table with
    | nil => exact absurd rfl hne
    | cons e rest => rfl
  refine ⟨cti_get_none_iff columns, ?_, ?_, ?_⟩
  · intro kv hfind
    refine ⟨List.mem_of_find?_eq_some hfind, ?_, ?_⟩
    · have hp := List.find?_some hfind
      simp only [Option.isNone_iff_eq_none] at hp
      exact (cti_get_none_iff columns kv.1).1 hp
    · unfold setup_speed_dials
      simp only []
      rw [htne]
      simp only [Bool.false_eq_true, if_false]
      rw [bdr_err table [] kv hfind]
  · intro kv hmem hnmem
    have hnone : (pyDictGet (columns_to_index columns) kv.1).isNone := by
      simp [Option.isNone_iff_eq_none, (cti_get_none_iff columns kv.1).2 hnmem]
    rw [List.find?_isSome]
    exact ⟨kv, hmem, hnone⟩
  · intro hall
    obtain ⟨dials, hdials⟩ := bdr_ok table [] (fun kv hkv => by
      cases hg : pyDictGet (columns_to_index columns) kv.1 with
      | none => exact absurd ((cti_get_none_iff columns kv.1).1 hg) (by simp [hall kv hkv])
      | some i => rfl)
    refine ⟨dials, hdials, ?_⟩
    unfold setup_speed_dials
    simp only []
    rw [htne]
    simp only [Bool.false_eq_true, if_false]
    rw [hdials]

/-- Witness for qc_rename_resolution: the spec's example rename table against a
header lacking the exact name fails naming the missing column. -/
theorem qc_rename_resolution_witness :
    setup_speed_dials ["Activity Id", "Foo"] ["distance"] (some [("Distance (km)", "distance")]) =
      Except.error ("no match for column: \"Distance (km)\"") :=
  ((qc_rename_resolution ["Activity Id", "Foo"] ["distance"] [("Distance (km)", "distance")]
      (by decide)).2.1 ("Distance (km)", "distance") (by decide)).2.2

/-- C7 counterexample: `if column_rename:` is Python truthiness, so a supplied but
empty rename table is treated as absent — resolution then succeeds by prefix
matching (ok [0]), although exact-match-only resolution over the empty dials
would have failed with the "no match for speed dial" error. -/
theorem qc_empty_rename_table_cex :
    setup_speed_dials ["Date Created"] ["date"] (some []) = Except.ok [0] ∧
    setup_accessor [] ["date"] = Except.error ("no match for speed dial \"date\" ") :=
  ⟨rfl, rfl⟩

/-- C9: every exit path of the reader's scoped context behaves identically (the
exception arguments are ignored); exit never closes the standard-input stream,
leaves all reader state unchanged, and always closes a file the reader opened
itself on enter. -/
theorem qc_exit_scoped (s : QuickCSVFileState) (e1 e2 : Option String) :
    quickcsv_exit s e1 = quickcsv_exit s e2 ∧
    (quickcsv_exit s e1).1 = s ∧
    ¬ FileObj.stdin ∈ (quickcsv_exit s e1).2 ∧
    (∀ fname pre fresh fo, quickcsv_enter_fileobj fname pre fresh = (some fo, true) →
      ∀ s2 : QuickCSVFileState, s2.file_obj = some fo →
        (quickcsv_exit s2 e1).2 = [fo]) := by
  refine ⟨rfl, ?_, ?_, ?_⟩
  · unfold quickcsv_exit
    split
    · split <;> rfl
    · rfl
  · unfold quickcsv_exit
    split
    · next f hf =>
      split
      · next hnef =>
        simp only [List.mem_singleton]
        exact fun he => hnef he.symm
      · simp
    · simp
  · intro fname pre fresh fo henter s2 hs2
    have hfo : fo = FileObj.handle fresh := by
      unfold quickcsv_enter_fileobj at henter
      split at henter
      · injection henter with h1 h2
        simp at h2
      · split at henter
        · injection henter with h1 h2
          injection h1 with h1
          exact h1.symm
        · injection henter with h1 h2
          simp at h2
    subst hfo
    unfold quickcsv_exit
    rw [hs2]
    simp

/-- Witness for qc_exit_scoped: a file opened from a real filename on enter is
the one handle closed on exit. -/
theorem qc_exit_scoped_witness :
    quickcsv_enter_fileobj (some "cardioActivities.csv") none 0 =
      (some (FileObj.handle 0), true) ∧
    (quickcsv_exit ⟨some "cardioActivities.csv", some (FileObj.handle 0)⟩ none).2 =
      [FileObj.handle 0] :=
  ⟨rfl, (qc_exit_scoped ⟨some "cardioActivities.csv", some (FileObj.handle 0)⟩ none none).2.2.2
      (some "cardioActivities.csv") none 0 (FileObj.handle 0) rfl
      ⟨some "cardioActivities.csv", some (FileObj.handle 0)⟩ rfl⟩
